import Mathlib

/-!
Verification of the py-Galaxia data-interchange and isochrone pipeline.

This file gives a shallow embedding of the code in
`src/Galaxia_ananke/photometry/IsochroneFile.py` and
`src/Galaxia_ananke/__init__.py`, together with theorems settling the
frozen claims about that code.  Strings are embedded as `List Char`,
Python floats as `ℚ` (exact rational arithmetic; all the values the
claims mention are finite decimals), fallible Python code as
`Except PyExc`.
-/

/-- Python exception outcomes observable in the modelled code.  Each
constructor corresponds to a concrete exception class the Python code can
raise, with distinct constructors for distinct raise sites where the
message distinguishes them. -/
inductive PyExc where
  /-- `IndexError`: `re.findall(...)[0]` on an empty match list. -/
  | indexError
  /-- `ValueError` from `float(...)` on a non-numeric string. -/
  | valueError
  /-- `ValueError("Given data should either be a pandas DataFrame or an astropy Table")`
      raised by `IsochroneFile._write_table`. -/
  | valueErrorNotTable
  /-- `ValueError` from an out-of-range control parameter (sample fraction). -/
  | valueErrorFsampleRange
  /-- `UnboundLocalError`: a local variable referenced before assignment. -/
  | unboundLocalError
  /-- `FileNotFoundError` from `open` on a missing path. -/
  | fileNotFoundError
  /-- `TypeError("Keyword argument 'isochrone' missing")` (IsochroneFile.__init__ line 25). -/
  | typeErrorKeywordMissing
  /-- `TypeError("Isochrone requires at least one argument")` (line 28). -/
  | typeErrorNoArgs
  /-- `TypeError("Too many arguments (n given)")` (line 34); carries the argument count. -/
  | typeErrorTooMany (n : ℕ)
  /-- `KeyError` from astropy `Table.sort` when a sort key column is absent. -/
  | keyError
  deriving DecidableEq, Repr

instance {ε α : Type} [DecidableEq ε] [DecidableEq α] : DecidableEq (Except ε α)
  | .error e, .error f =>
    if h : e = f then .isTrue (by rw [h]) else .isFalse (fun c => h (Except.error.inj c))
  | .ok a, .ok b =>
    if h : a = b then .isTrue (by rw [h]) else .isFalse (fun c => h (Except.ok.inj c))
  | .error _, .ok _ => .isFalse Except.noConfusion
  | .ok _, .error _ => .isFalse Except.noConfusion

/-! ## Character-list utilities shared by the embedding -/

/-- The slice `s[a:b]` of a character list. -/
def seg (s : List Char) (a b : ℕ) : List Char := (s.drop a).take (b - a)

/-- Python `str.split(sep)` with a one-character separator: splits at every
occurrence, keeping empty pieces (so the result is never `[]`). -/
def pySplit (sep : Char) : List Char → List (List Char)
  | [] => [[]]
  | c :: rest =>
    let r := pySplit sep rest
    if c = sep then [] :: r
    else
      match r with
      | g :: gs => (c :: g) :: gs
      | [] => [[c]]

/-- Python `str.strip(c)` for a one-character strip set: removes every copy
of `c` from both ends. -/
def pyStripChar (c : Char) (s : List Char) : List Char :=
  ((s.dropWhile (· = c)).reverse.dropWhile (· = c)).reverse

/-! ## The regular-expression model behind `IsochroneFile.metallicity`

`IsochroneFile._file_format` is the string `output_` followed by a
placeholder followed by `.dat`; splitting it on the placeholder and
interpolating into a lookbehind/lookahead pattern yields the regex
whose literal text is: lookbehind for `output_`, then a greedy group of
non-newline characters, then lookahead for one non-newline character
followed by `dat` (the dot of `.dat` is a regex wildcard).
`metallicity` takes the first (leftmost, greedy) match's group and
applies Python `float` to it. -/

/-- The fixed left part of `IsochroneFile._file_format` (before the placeholder). -/
def fileFormatLeft : List Char := "output_".toList

/-- Does the regex lookbehind for `output_` succeed at position `i` of `s`? -/
def lookbehindAt (s : List Char) (i : ℕ) : Bool :=
  decide (7 ≤ i) && (seg s (i - 7) i == fileFormatLeft)

/-- Does the lookahead pattern (one non-newline character followed by
`dat`) match the front of a character list? -/
def lookaheadList : List Char → Bool
  | c :: 'd' :: 'a' :: 't' :: _ => c != '\n'
  | _ => false

/-- Does the lookahead (one non-newline character followed by `dat`)
succeed at position `j` of `s`? -/
def lookaheadAt (s : List Char) (j : ℕ) : Bool :=
  lookaheadList (s.drop j)

/-- Is `s[i:j]` free of newlines (the characters a greedy `.*` may consume)? -/
def noNL (s : List Char) (i j : ℕ) : Bool :=
  (seg s i j).all (fun c => c != '\n')

/-- Can the greedy group span `s[i:j]` with the lookahead holding at `j`? -/
def goodEnd (s : List Char) (i j : ℕ) : Bool :=
  decide (i ≤ j) && lookaheadAt s j && noNL s i j

/-- Scan `j` downward from the third argument: the largest `j` at which the
greedy group starting at `i` can end (greedy `.*` prefers the longest span). -/
def greedyEndAux (s : List Char) (i : ℕ) : ℕ → Option ℕ
  | 0 => if goodEnd s i 0 then some 0 else none
  | j + 1 => if goodEnd s i (j + 1) then some (j + 1) else greedyEndAux s i j

/-- End position of the greedy group for a match attempt at position `i`. -/
def greedyEnd (s : List Char) (i : ℕ) : Option ℕ := greedyEndAux s i s.length

/-- The regex engine's scan: try match positions `i, i+1, ...` left to
right; at the first `i` where the lookbehind holds and the greedy group can
close, return `(i, end)`.  `fuel` bounds the scan at `s.length + 1`
positions, which covers every start position of `s`. -/
def firstFrom (s : List Char) (i : ℕ) : ℕ → Option (ℕ × ℕ)
  | 0 => none
  | fuel + 1 =>
    if lookbehindAt s i then
      match greedyEnd s i with
      | some j => some (i, j)
      | none => firstFrom s (i + 1) fuel
    else firstFrom s (i + 1) fuel

/-- Group text of the first regex match in `s`, i.e. `re.findall(...)[0]`
when the match list is nonempty, `none` when it is empty. -/
def reFirstGroup (s : List Char) : Option (List Char) :=
  (firstFrom s 0 (s.length + 1)).map (fun ij => seg s ij.1 ij.2)

/-! ## Python `float` on decimal literals

Model of the builtin `float(str)` on the finite decimal and
scientific-notation forms isochrone filenames use.  (`inf`/`nan` spellings
and underscore digit separators are not modelled; no claim involves them.) -/

/-- Is `c` an ASCII decimal digit? -/
def pyDigit (c : Char) : Bool := decide ('0' ≤ c) && decide (c ≤ '9')

/-- Numeric value of a digit string (most significant first). -/
def digitsVal (l : List Char) : ℕ :=
  l.foldl (fun a c => 10 * a + (c.toNat - '0'.toNat)) 0

/-- Whitespace stripped by `float` around its argument. -/
def pyWs (c : Char) : Bool := c = ' ' || c = '\t' || c = '\n' || c = '\r'

/-- Parse an optional leading sign; returns (negative?, remainder). -/
def parseSign : List Char → Bool × List Char
  | '-' :: r => (true, r)
  | '+' :: r => (false, r)
  | l => (false, l)

/-- Parse an unsigned mantissa (digits with at most one point, at least one
digit overall) as a numerator/denominator pair: `value = num / den`. -/
def parseMantissaFrac (m : List Char) : Option (ℕ × ℕ) :=
  match pySplit '.' m with
  | [ds] =>
    if ds ≠ [] ∧ ds.all pyDigit then some (digitsVal ds, 1) else none
  | [ip, fp] =>
    if ip ++ fp ≠ [] ∧ (ip ++ fp).all pyDigit then
      some (digitsVal ip * 10 ^ fp.length + digitsVal fp, 10 ^ fp.length)
    else none
  | _ => none

/-- The value parsed by Python `float(str)` as an unnormalized signed
fraction `(numerator, positive denominator)`; `none` where Python raises
`ValueError`. -/
def pyFloatFrac (s : List Char) : Option (ℤ × ℕ) :=
  let t := ((s.dropWhile pyWs).reverse.dropWhile pyWs).reverse
  -- Python accepts either case for the exponent marker; normalize E to e
  let t := t.map (fun c => if c = 'E' then 'e' else c)
  let (neg, t) := parseSign t
  let res : Option (ℕ × ℕ) :=
    match pySplit 'e' t with
    | [m] => parseMantissaFrac m
    | [m, ex] =>
      let (eneg, ed) := parseSign ex
      if ed ≠ [] ∧ ed.all pyDigit then
        (parseMantissaFrac m).map (fun p =>
          if eneg then (p.1, p.2 * 10 ^ digitsVal ed) else (p.1 * 10 ^ digitsVal ed, p.2))
      else none
    | _ => none
  res.map (fun p => (if neg then -(p.1 : ℤ) else (p.1 : ℤ), p.2))

/-- Python `float(str)` on finite decimal/scientific literals, as an exact
rational; `none` where Python raises `ValueError`. -/
def pyFloat (s : List Char) : Option ℚ :=
  (pyFloatFrac s).map (fun p => (p.1 : ℚ) / (p.2 : ℚ))

/-- `IsochroneFile.metallicity` (lines 78-81): the first regex group of the
filename coerced by `float`.  An empty findall list makes the subscript
raise `IndexError`; a non-numeric group makes `float` raise `ValueError`. -/
def metallicity (filename : List Char) : Except PyExc ℚ :=
  match reFirstGroup filename with
  | none => .error .indexError
  | some g =>
    match pyFloat g with
    | none => .error .valueError
    | some q => .ok q

/-! ## `IsochroneFile._load_column_names` (lines 54-64)

The Python loop repeatedly calls `f.readline()` while each line begins
with the comment marker, remembering the last such line in `header`; it
stops at the first line that is empty (end of file) or does not begin
with `#`.  If no line of the leading block begins with `#`, `header` is
never assigned and the subsequent use raises `UnboundLocalError`.
Afterwards `header` is stripped of `#`, spaces, and newlines at both
ends (in that order), tabs become spaces, runs of two spaces are
collapsed until none remain, and the result is split on single spaces. -/

/-- Split file content into the sequence of lines `readline` yields,
each keeping its trailing newline; a final unterminated line is kept too. -/
def splitLinesKeep : List Char → List (List Char)
  | [] => []
  | c :: rest =>
    if c = '\n' then ['\n'] :: splitLinesKeep rest
    else
      match splitLinesKeep rest with
      | [] => [[c]]
      | l :: ls => (c :: l) :: ls

/-- The `header` variable after the read loop: the last line of the
longest leading run of lines beginning with `#`, or `none` when the first
line already fails the test (in Python, `header` stays unbound). -/
def lastCommentRun : List (List Char) → Option (List Char)
  | [] => none
  | l :: ls =>
    if l.head? = some '#' then
      match lastCommentRun ls with
      | some h => some h
      | none => some l
    else none

/-- Python `str.replace` of two adjacent spaces by one (single left-to-right
pass over non-overlapping occurrences). -/
def replaceTwoSpace : List Char → List Char
  | [] => []
  | [c] => [c]
  | a :: b :: rest =>
    if a = ' ' ∧ b = ' ' then ' ' :: replaceTwoSpace rest
    else a :: replaceTwoSpace (b :: rest)

/-- Does the string contain two adjacent spaces (`header.count` positive)? -/
def hasTwoSpace : List Char → Bool
  | a :: b :: rest => (decide (a = ' ') && decide (b = ' ')) || hasTwoSpace (b :: rest)
  | _ => false

/-- The `while header.count: header = header.replace(...)` loop.  Each pass
with a double space strictly shortens the string, so `s.length` passes
always reach the loop's exit condition; the fuel only bounds that count. -/
def collapseSpacesFuel : ℕ → List Char → List Char
  | 0, s => s
  | fuel + 1, s => if hasTwoSpace s then collapseSpacesFuel fuel (replaceTwoSpace s) else s

/-- Collapse runs of spaces by iterating the two-space replacement to its
fixed point, as the Python `while` loop does. -/
def collapseSpaces (s : List Char) : List Char := collapseSpacesFuel s.length s

/-- The header post-processing of `_load_column_names` line 61-63:
`header.strip(hash).strip(space).strip(newline).replace(tab, space)`
followed by the two-space collapse loop. -/
def stripHeader (header : List Char) : List Char :=
  collapseSpaces
    (((pyStripChar '\n' (pyStripChar ' ' (pyStripChar '#' header)))).map
      (fun ch => if ch = '\t' then ' ' else ch))

/-- `IsochroneFile._load_column_names` on raw file content: the resulting
`_column_names` value, or the exception the Python code raises.  With no
leading commented line the code raises `UnboundLocalError` (the spec's
`HeaderFormatError` situation). -/
def loadColumnNames (content : List Char) : Except PyExc (List (List Char)) :=
  match lastCommentRun (splitLinesKeep content) with
  | none => .error .unboundLocalError
  | some header => .ok (pySplit ' ' (stripHeader header))

/-! ## File-system and lazy-cache state of an `IsochroneFile`

`__init__` (lines 23-36) stores the path and initializes the two cache
slots `_column_names` and `_data` to `None`; the properties
`column_names` and `data` (lines 83-93) fill a slot on first access and
afterwards return it unchanged.  The file system is passed to each
access explicitly, so that a theorem quantifying over the file system at
the second access expresses that no re-read happens. -/

/-- A text file system: an association of paths to raw character content. -/
structure CharFS where
  files : List (List Char × List Char)
  deriving DecidableEq, Repr

/-- Look a path up in the file system (what `open(path)` finds). -/
def fsRead (fs : CharFS) (p : List Char) : Option (List Char) :=
  (fs.files.find? (fun e => e.1 == p)).map (fun e => e.2)

/-- The mutable state of one `IsochroneFile` object: the fixed path and
the two lazily filled cache slots.  `δ` is the type of the parsed data
table (produced by the third-party `ascii.read`). -/
structure IsoFileState (δ : Type) where
  path : List Char
  columnNamesCache : Option (List (List Char))
  dataCache : Option δ
  deriving DecidableEq, Repr

/-- The state `__init__` leaves behind for a one-path construction:
`_path` set, both caches `None` (lines 30, 35-36). -/
def mkIsoState (δ : Type) (p : List Char) : IsoFileState δ := ⟨p, none, none⟩

/-- The `column_names` property (lines 83-87): return the cache if filled,
otherwise open and parse the file, fill the cache, and return it.  A
missing file surfaces as `FileNotFoundError` from `open`. -/
def accessColumnNames {δ : Type} (fs : CharFS) (s : IsoFileState δ) :
    Except PyExc (IsoFileState δ × List (List Char)) :=
  match s.columnNamesCache with
  | some v => .ok (s, v)
  | none =>
    match fsRead fs s.path with
    | none => .error .fileNotFoundError
    | some content =>
      match loadColumnNames content with
      | .error e => .error e
      | .ok v => .ok ({ s with columnNamesCache := some v }, v)

/-- The `data` property (lines 89-93): return the cache if filled,
otherwise run `_load_data`, which reads `ascii.read(path, names=column_names)`
— triggering the `column_names` property first — and fills the cache.
The third-party `ascii.read` parse is the parameter `reader`. -/
def accessData {δ : Type} (reader : List Char → List (List Char) → Except PyExc δ)
    (fs : CharFS) (s : IsoFileState δ) : Except PyExc (IsoFileState δ × δ) :=
  match s.dataCache with
  | some d => .ok (s, d)
  | none =>
    match accessColumnNames fs s with
    | .error e => .error e
    | .ok (s₁, names) =>
      match fsRead fs s₁.path with
      | none => .error .fileNotFoundError
      | some content =>
        match reader content names with
        | .error e => .error e
        | .ok d => .ok ({ s₁ with dataCache := some d }, d)

/-! ## The construction/write path of `IsochroneFile` (lines 23-49)

`_write_table` delegates serialization to astropy (`Table.sort` followed
by `Table.write(format=ascii.commented_header)`) and `_load_data`
delegates parsing to `ascii.read`.  Those third-party calls are modelled
at the table level: the file system stores the structured table an
`ascii.commented_header` file holds (one comment line with the column
names, then the rows), and reading it back with explicit `names`
recovers the stored rows under the given names.  Cell values are exact
rationals.  The repository's own logic — argument checking, the sort by
the isochrone's age and initial-mass columns, write-then-construct
ordering, and the lazy caches — is modelled faithfully. -/

/-- An astropy table: ordered column names and rows of numeric cells. -/
structure AstroTable where
  colnames : List (List Char)
  rows : List (List ℚ)
  deriving DecidableEq, Repr

/-- The second positional argument of `IsochroneFile.__init__`: a pandas
`DataFrame`, an astropy `Table` (`from_pandas` makes these interchangeable
at this level), or a value of any other type. -/
inductive TableLike where
  | pandas (t : AstroTable)
  | astro (t : AstroTable)
  | other
  deriving DecidableEq, Repr

/-- A file system of `ascii.commented_header` isochrone files, stored
structurally. -/
structure TableFS where
  files : List (List Char × AstroTable)
  deriving DecidableEq, Repr

/-- Look up a path in the table file system. -/
def fsReadT (fs : TableFS) (p : List Char) : Option AstroTable :=
  (fs.files.find? (fun e => e.1 == p)).map (fun e => e.2)

/-- Write (create or overwrite) a path in the table file system. -/
def fsWriteT (fs : TableFS) (p : List Char) (t : AstroTable) : TableFS :=
  ⟨(p, t) :: fs.files⟩

/-- The column names the isochrone object supplies as sort keys
(`self.isochrone._Age` and `self.isochrone._M_ini` on line 48). -/
structure IsoMeta where
  ageName : List Char
  miniName : List Char
  deriving DecidableEq, Repr

/-- Row comparison used by `Table.sort([Age, M_ini])`: ascending
lexicographic order on the age cell then the initial-mass cell, the key
columns sitting at indices `iA` and `iM`. -/
def rowKeyLe (iA iM : ℕ) (r₁ r₂ : List ℚ) : Bool :=
  decide (r₁.getD iA 0 < r₂.getD iA 0) ||
    (decide (r₁.getD iA 0 = r₂.getD iA 0) && decide (r₁.getD iM 0 ≤ r₂.getD iM 0))

/-- astropy `Table.sort(keys)`: sort the rows ascending by the named key
columns; a missing key column raises `KeyError`. -/
def tableSortByKeys (ageName miniName : List Char) (t : AstroTable) :
    Except PyExc AstroTable :=
  match t.colnames.findIdx? (fun n => n == ageName),
      t.colnames.findIdx? (fun n => n == miniName) with
  | some iA, some iM => .ok ⟨t.colnames, t.rows.mergeSort (rowKeyLe iA iM)⟩
  | _, _ => .error .keyError

/-- `IsochroneFile._write_table` (lines 43-49): require a DataFrame or
Table, sort by (age, initial mass), and write to the path. -/
def writeTable (iso : IsoMeta) (fs : TableFS) (p : List Char) (d : TableLike) :
    Except PyExc TableFS :=
  match d with
  | .other => .error .valueErrorNotTable
  | .pandas t | .astro t =>
    match tableSortByKeys iso.ageName iso.miniName t with
    | .error e => .error e
    | .ok t' => .ok (fsWriteT fs p t')

/-- The positional arguments of `IsochroneFile.__init__`.  The modelled
call shapes keep what the code consumes: the first positional argument is
a path-like value (fed to `pathlib.Path`), the optional second is the raw
table; `moreThanTwo extra` stands for a call with `extra + 3` positional
arguments, of which the code only inspects the count. -/
inductive InitArgs where
  | noArgs
  | onePath (p : List Char)
  | pathAndTable (p : List Char) (d : TableLike)
  | moreThanTwo (extra : ℕ)
  deriving DecidableEq, Repr

/-- `IsochroneFile.__init__` (lines 23-36): the keyword check precedes the
positional-count checks; a one-argument call just records the path; a
two-argument call writes the table first; the cache slots start `None`.
Returns the updated file system and the constructed object's state, or
the exception (in which case no object is produced). -/
def isochroneFileInit (fs : TableFS) (args : InitArgs) (iso : Option IsoMeta) :
    Except PyExc (TableFS × IsoFileState AstroTable) :=
  match iso with
  | none => .error .typeErrorKeywordMissing
  | some isoMeta =>
    match args with
    | .noArgs => .error .typeErrorNoArgs
    | .onePath p => .ok (fs, mkIsoState AstroTable p)
    | .pathAndTable p d =>
      match writeTable isoMeta fs p d with
      | .error e => .error e
      | .ok fs' => .ok (fs', mkIsoState AstroTable p)
    | .moreThanTwo extra => .error (.typeErrorTooMany (extra + 3))

/-- Is the outcome a `TypeError` (any of the three `__init__` raise sites)? -/
def raisesTypeError {α : Type} : Except PyExc α → Bool
  | .error .typeErrorKeywordMissing => true
  | .error .typeErrorNoArgs => true
  | .error (.typeErrorTooMany _) => true
  | _ => false

/-- Table-level view of the `column_names` load: an
`ascii.commented_header` file's last (only) leading comment line holds
exactly its column names, so parsing the header of a stored table yields
its `colnames`. -/
def loadColumnNamesT (fs : TableFS) (p : List Char) : Except PyExc (List (List Char)) :=
  match fsReadT fs p with
  | none => .error .fileNotFoundError
  | some t => .ok t.colnames

/-- Table-level `column_names` property over the table file system. -/
def accessColumnNamesT (fs : TableFS) (s : IsoFileState AstroTable) :
    Except PyExc (IsoFileState AstroTable × List (List Char)) :=
  match s.columnNamesCache with
  | some v => .ok (s, v)
  | none =>
    match loadColumnNamesT fs s.path with
    | .error e => .error e
    | .ok v => .ok ({ s with columnNamesCache := some v }, v)

/-- `ascii.read(path, names=names)`: read the stored table under the
caller-supplied column names. -/
def asciiReadT (fs : TableFS) (p : List Char) (names : List (List Char)) :
    Except PyExc AstroTable :=
  match fsReadT fs p with
  | none => .error .fileNotFoundError
  | some t => .ok ⟨names, t.rows⟩

/-- Table-level `data` property: resolve `column_names` first (caching
it), then read the table body, then cache the result. -/
def accessDataT (fs : TableFS) (s : IsoFileState AstroTable) :
    Except PyExc (IsoFileState AstroTable × AstroTable) :=
  match s.dataCache with
  | some d => .ok (s, d)
  | none =>
    match accessColumnNamesT fs s with
    | .error e => .error e
    | .ok (s₁, names) =>
      match asciiReadT fs s₁.path names with
      | .error e => .error e
      | .ok d => .ok ({ s₁ with dataCache := some d }, d)

/-! ## The public entry point `make_survey_from_particles`
(`__init__.py` lines 27, 116-122)

The function body selects the input: if `pname` and `kname` are both
given, it builds the pre-built-files `Input`; otherwise, if exactly three
positional arguments were passed, it builds the array-based `Input`;
otherwise the local variable `input` is never assigned and the following
`Survey(input, ...)` raises `UnboundLocalError`.  The positional
arguments' element type is abstract (`α`). -/

/-- Which `Input` the entry point constructed. -/
inductive InputSelection (α : Type) where
  | prebuilt (pname kname : List Char)
  | arrays (args : List α)
  deriving DecidableEq, Repr

/-- Modelled from the spec: the `Survey.make_survey` stage (the `Survey`
module is not under `src/`; only its call site is).  Per the spec's
control-parameter contract, known keys must satisfy their type/range
constraints — in particular the sample fraction must lie in [0, 1] — and
an out-of-range value is rejected before any survey output is produced.
The survey output is represented by the selected input it was built
from. -/
def surveyMakeSurvey {α : Type} (sel : InputSelection α) (fsample : ℚ) :
    Except PyExc (InputSelection α) :=
  if fsample < 0 ∨ 1 < fsample then .error .valueErrorFsampleRange else .ok sel

/-- `make_survey_from_particles` (lines 116-122): input selection followed
by the survey stage. -/
def makeSurveyFromParticles {α : Type} (args : List α)
    (pname kname : Option (List Char)) (fsample : ℚ) :
    Except PyExc (InputSelection α) :=
  match pname, kname with
  | some p, some k => surveyMakeSurvey (.prebuilt p k) fsample
  | _, _ =>
    if args.length = 3 then surveyMakeSurvey (.arrays args) fsample
    else .error .unboundLocalError

/-! ## Behaviour of the regex scan on template-shaped filenames -/

/-- One scan step at a position where the lookbehind fails. -/
theorem firstFrom_step_no (s : List Char) (i fuel : ℕ) (h : lookbehindAt s i = false) :
    firstFrom s i (fuel + 1) = firstFrom s (i + 1) fuel := by
  simp [firstFrom, h]

/-- One scan step at a position where the match succeeds. -/
theorem firstFrom_step_yes (s : List Char) (i fuel j : ℕ) (hb : lookbehindAt s i = true)
    (hg : greedyEnd s i = some j) : firstFrom s i (fuel + 1) = some (i, j) := by
  simp [firstFrom, hb, hg]

/-- One greedy-backtracking step at an end position that does not work. -/
theorem greedyEndAux_step_no (s : List Char) (i j : ℕ) (h : goodEnd s i (j + 1) = false) :
    greedyEndAux s i (j + 1) = greedyEndAux s i j := by
  simp [greedyEndAux, h]

/-- The greedy group closes at the first workable end position scanning down. -/
theorem greedyEndAux_step_yes (s : List Char) (i j : ℕ) (h : goodEnd s i (j + 1) = true) :
    greedyEndAux s i (j + 1) = some (j + 1) := by
  simp [greedyEndAux, h]

/-- On a filename of the exact naming-template shape `output_<v>.dat` (with
`v` newline-free, as every file name is), the first regex match's group is
exactly `v`: the lookbehind first succeeds right after the `output_` that
starts the name, and the greedy group extends to just before the final
`.dat`, which is the last position where the lookahead can close. -/
theorem reFirstGroup_template (v : List Char) (hnl : '\n' ∉ v) :
    reFirstGroup ("output_".toList ++ v ++ ".dat".toList) = some v := by
  set s : List Char := "output_".toList ++ v ++ ".dat".toList with hs
  have hlen : s.length = v.length + 11 := by
    rw [hs]; simp [List.length_append]
  have hdropA : ∀ k : ℕ, s.drop (v.length + 7 + k) = ".dat".toList.drop k := by
    intro k
    have hA : ("output_".toList ++ v).length = v.length + 7 := by
      simp [List.length_append]
    rw [hs, ← hA, List.drop_append]
  have hdrop7 : s.drop 7 = v ++ ".dat".toList := by
    rw [hs, List.append_assoc]
    exact List.drop_left' (by decide)
  have hseg : seg s 7 (v.length + 7) = v := by
    unfold seg
    rw [hdrop7, Nat.add_sub_cancel]
    exact List.take_left' rfl
  have hb7 : lookbehindAt s 7 = true := by
    have hseg0 : seg s 0 7 = fileFormatLeft := by
      unfold seg
      rw [List.drop_zero, hs, List.append_assoc]
      exact List.take_left' (by decide)
    simp [lookbehindAt, hseg0]
  have hla : ∀ k : ℕ, lookaheadAt s (v.length + 7 + k) = lookaheadList (".dat".toList.drop k) := by
    intro k
    unfold lookaheadAt
    rw [hdropA k]
  have hg7 : greedyEnd s 7 = some (v.length + 7) := by
    have hno : ∀ k : ℕ, lookaheadList (".dat".toList.drop (k + 1)) = false := by
      intro k
      rcases k with _ | _ | _ | k <;> simp [lookaheadList, List.drop_nil]
    have h11 : goodEnd s 7 (v.length + 7 + 4) = false := by
      have : lookaheadAt s (v.length + 7 + 4) = false := by rw [hla 4]; exact hno 3
      simp [goodEnd, this]
    have h10 : goodEnd s 7 (v.length + 7 + 3) = false := by
      have : lookaheadAt s (v.length + 7 + 3) = false := by rw [hla 3]; exact hno 2
      simp [goodEnd, this]
    have h9 : goodEnd s 7 (v.length + 7 + 2) = false := by
      have : lookaheadAt s (v.length + 7 + 2) = false := by rw [hla 2]; exact hno 1
      simp [goodEnd, this]
    have h8 : goodEnd s 7 (v.length + 7 + 1) = false := by
      have : lookaheadAt s (v.length + 7 + 1) = false := by rw [hla 1]; exact hno 0
      simp [goodEnd, this]
    have h7 : goodEnd s 7 (v.length + 7) = true := by
      have hl : lookaheadAt s (v.length + 7) = true := by
        have := hla 0
        simp only [Nat.add_zero] at this
        rw [this]
        decide
      have hn : noNL s 7 (v.length + 7) = true := by
        unfold noNL
        rw [hseg]
        simp only [List.all_eq_true, bne_iff_ne]
        intro c hc h
        exact hnl (h ▸ hc)
      simp [goodEnd, hl, hn]
    show greedyEndAux s 7 s.length = some (v.length + 7)
    rw [hlen]
    calc greedyEndAux s 7 (v.length + 11)
        = greedyEndAux s 7 (v.length + 10) := greedyEndAux_step_no s 7 (v.length + 10) h11
      _ = greedyEndAux s 7 (v.length + 9) := greedyEndAux_step_no s 7 (v.length + 9) h10
      _ = greedyEndAux s 7 (v.length + 8) := greedyEndAux_step_no s 7 (v.length + 8) h9
      _ = greedyEndAux s 7 (v.length + 7) := greedyEndAux_step_no s 7 (v.length + 7) h8
      _ = some (v.length + 7) := greedyEndAux_step_yes s 7 (v.length + 6) h7
  have hscan : firstFrom s 0 (v.length + 12) = some (7, v.length + 7) := by
    calc firstFrom s 0 (v.length + 12)
        = firstFrom s 1 (v.length + 11) := firstFrom_step_no s 0 (v.length + 11) (by rfl)
      _ = firstFrom s 2 (v.length + 10) := firstFrom_step_no s 1 (v.length + 10) (by rfl)
      _ = firstFrom s 3 (v.length + 9) := firstFrom_step_no s 2 (v.length + 9) (by rfl)
      _ = firstFrom s 4 (v.length + 8) := firstFrom_step_no s 3 (v.length + 8) (by rfl)
      _ = firstFrom s 5 (v.length + 7) := firstFrom_step_no s 4 (v.length + 7) (by rfl)
      _ = firstFrom s 6 (v.length + 6) := firstFrom_step_no s 5 (v.length + 6) (by rfl)
      _ = firstFrom s 7 (v.length + 5) := firstFrom_step_no s 6 (v.length + 5) (by rfl)
      _ = some (7, v.length + 7) := firstFrom_step_yes s 7 (v.length + 4) _ hb7 hg7
  unfold reFirstGroup
  rw [hlen, hscan]
  simp [hseg]

/-- Claim C1: for every IsochroneFile whose filename matches the naming
template (`output_`, then a value, then `.dat`), the metallicity property
returns the floating-point value of the text between the fixed prefix and
the fixed suffix; in particular `output_0.0190.dat` yields 0.019 and
`output_-0.5.dat` yields -0.5. -/
theorem claim_C1_metallicity_template :
    (∀ (v : List Char) (q : ℚ), '\n' ∉ v → pyFloat v = some q →
      metallicity ("output_".toList ++ v ++ ".dat".toList) = .ok q)
    ∧ metallicity "output_0.0190.dat".toList = .ok (0.019 : ℚ)
    ∧ metallicity "output_-0.5.dat".toList = .ok (-0.5 : ℚ) := by
  refine ⟨?_, ?_, ?_⟩
  · intro v q hnl hq
    have hre := reFirstGroup_template v hnl
    simp only [metallicity, hre, hq]
  · have hre : reFirstGroup "output_0.0190.dat".toList = some ['0', '.', '0', '1', '9', '0'] := by
      decide
    have hf : pyFloatFrac ['0', '.', '0', '1', '9', '0'] = some (190, 10000) := by decide
    simp only [metallicity, hre, pyFloat, hf, Option.map]
    norm_num
  · have hre : reFirstGroup "output_-0.5.dat".toList = some ['-', '0', '.', '5'] := by decide
    have hf : pyFloatFrac ['-', '0', '.', '5'] = some (-5, 10) := by decide
    simp only [metallicity, hre, pyFloat, hf, Option.map]
    norm_num

/-- Witness for claim C1 at the concrete value text `7.25`. -/
theorem claim_C1_metallicity_template_witness :
    metallicity ("output_".toList ++ "7.25".toList ++ ".dat".toList) = .ok (7.25 : ℚ) := by
  have hq : pyFloat "7.25".toList = some (7.25 : ℚ) := by
    have h : pyFloatFrac "7.25".toList = some (725, 100) := by decide
    simp only [pyFloat, h, Option.map]
    norm_num
  exact claim_C1_metallicity_template.1 "7.25".toList (7.25 : ℚ) (by decide) hq

/-! ## Behaviour of the header-line scan -/

/-- Reading a newline-terminated line off the front of the content. -/
theorem splitLinesKeep_line (b rest : List Char) (hb : '\n' ∉ b) :
    splitLinesKeep (b ++ '\n' :: rest) = (b ++ ['\n']) :: splitLinesKeep rest := by
  induction b with
  | nil => simp [splitLinesKeep]
  | cons c cs ih =>
    have hc : c ≠ '\n' := fun h => hb (h ▸ List.mem_cons_self c cs)
    have ih' := ih (fun h => hb (List.mem_cons_of_mem c h))
    simp [splitLinesKeep, hc, ih']

/-- The first line of nonempty content starts with its first character. -/
theorem splitLinesKeep_head (c : Char) (r : List Char) :
    ∃ l ls, splitLinesKeep (c :: r) = l :: ls ∧ l.head? = some c := by
  by_cases hc : c = '\n'
  · subst hc
    exact ⟨['\n'], splitLinesKeep r, by simp [splitLinesKeep], rfl⟩
  · cases h : splitLinesKeep r with
    | nil => exact ⟨[c], [], by simp [splitLinesKeep, hc, h], rfl⟩
    | cons l ls => exact ⟨c :: l, ls, by simp [splitLinesKeep, hc, h], rfl⟩

/-- When the first character of the content is not the comment marker, the
read loop assigns `header` on no iteration. -/
theorem lastCommentRun_of_head (rest : List Char) (h : rest.head? ≠ some '#') :
    lastCommentRun (splitLinesKeep rest) = none := by
  cases rest with
  | nil => rfl
  | cons c r =>
    obtain ⟨l, ls, hsl, hH⟩ := splitLinesKeep_head c r
    rw [hsl]
    have hne : ¬l.head? = some '#' := by
      rw [hH]
      simpa using h
    simp [lastCommentRun, hne]

/-- One step of the `header` scan over a commented line. -/
theorem lastCommentRun_comment_cons (l : List Char) (ls : List (List Char))
    (h : l.head? = some '#') :
    lastCommentRun (l :: ls)
      = match lastCommentRun ls with | some x => some x | none => some l := by
  simp [lastCommentRun, h]

/-- The `header` scan over a run of commented lines followed by a last
commented line and a non-comment remainder returns that last line. -/
theorem lastCommentRun_append (hdr : List Char) (tail : List (List Char))
    (hhdr : hdr.head? = some '#') (htail : lastCommentRun tail = none) :
    ∀ pre : List (List Char), (∀ l ∈ pre, l.head? = some '#') →
      lastCommentRun (pre ++ hdr :: tail) = some hdr := by
  intro pre
  induction pre with
  | nil =>
    intro _
    rw [List.nil_append, lastCommentRun_comment_cons hdr tail hhdr, htail]
  | cons l pre' ih =>
    intro hpre
    have h1 : l.head? = some '#' := hpre l (List.mem_cons_self l pre')
    have ih' := ih (fun x hx => hpre x (List.mem_cons_of_mem l hx))
    rw [List.cons_append, lastCommentRun_comment_cons l _ h1, ih']

/-- Splitting content whose front is a run of newline-terminated lines
peels those lines off one by one. -/
theorem splitLinesKeep_flatten (tail : List Char) :
    ∀ pre : List (List Char),
      (∀ l ∈ pre, ∃ b, l = b ++ ['\n'] ∧ '\n' ∉ b) →
      splitLinesKeep (pre.flatten ++ tail) = pre ++ splitLinesKeep tail := by
  intro pre
  induction pre with
  | nil => intro _; simp
  | cons l pre' ih =>
    intro hpre
    obtain ⟨b, hb1, hb2⟩ := hpre l (List.mem_cons_self l pre')
    have ih' := ih (fun x hx => hpre x (List.mem_cons_of_mem l hx))
    subst hb1
    rw [List.flatten_cons, List.append_assoc, List.append_assoc,
      List.singleton_append, splitLinesKeep_line b _ hb2, ih', List.cons_append]

/-- The column-names load on a file whose leading comment block's last
commented line is `# Age M_ini logL logT` (newline-terminated): `pre` is
the preceding comment block (newline-terminated lines starting with the
marker) and `rest` the file body, whose first line is not commented. -/
theorem loadColumnNames_header_template (pre : List (List Char)) (rest : List Char)
    (hpre : ∀ l ∈ pre, ∃ b, l = b ++ ['\n'] ∧ '\n' ∉ b ∧ b.head? = some '#')
    (hrest : rest.head? ≠ some '#') :
    loadColumnNames (pre.flatten ++ "# Age M_ini logL logT\n".toList ++ rest)
      = .ok ["Age".toList, "M_ini".toList, "logL".toList, "logT".toList] := by
  have hshape : ∀ l ∈ pre, ∃ b, l = b ++ ['\n'] ∧ '\n' ∉ b := by
    intro l hl
    obtain ⟨b, h1, h2, _⟩ := hpre l hl
    exact ⟨b, h1, h2⟩
  have hhead : ∀ l ∈ pre, l.head? = some '#' := by
    intro l hl
    obtain ⟨b, h1, _, h3⟩ := hpre l hl
    subst h1
    cases b with
    | nil => simp at h3
    | cons c cs => simpa using h3
  have hassoc : pre.flatten ++ "# Age M_ini logL logT\n".toList ++ rest
      = pre.flatten ++ ("# Age M_ini logL logT".toList ++ '\n' :: rest) := by
    rw [List.append_assoc]
    congr 1
  have hsplit : splitLinesKeep (pre.flatten ++ ("# Age M_ini logL logT".toList ++ '\n' :: rest))
      = pre ++ ("# Age M_ini logL logT\n".toList :: splitLinesKeep rest) := by
    rw [splitLinesKeep_flatten _ pre hshape,
      splitLinesKeep_line "# Age M_ini logL logT".toList rest (by decide)]
    congr 2
  have hrun : lastCommentRun (pre ++ ("# Age M_ini logL logT\n".toList :: splitLinesKeep rest))
      = some "# Age M_ini logL logT\n".toList :=
    lastCommentRun_append _ _ (by decide) (lastCommentRun_of_head rest hrest) pre hhead
  unfold loadColumnNames
  rw [hassoc, hsplit, hrun]
  decide

/-- Claim C2: for every isochrone file whose leading comment block's last
commented line is `# Age M_ini logL logT` (newline-terminated), the first
access of the `column_names` property returns
`["Age", "M_ini", "logL", "logT"]`: the marker and surrounding whitespace
are stripped, whitespace runs collapse to single separators, and the line
splits into the four names (which are then cached on the object). -/
theorem claim_C2_column_names (δ : Type) (fs : CharFS) (p : List Char)
    (pre : List (List Char)) (rest : List Char)
    (hread : fsRead fs p = some (pre.flatten ++ "# Age M_ini logL logT\n".toList ++ rest))
    (hpre : ∀ l ∈ pre, ∃ b, l = b ++ ['\n'] ∧ '\n' ∉ b ∧ b.head? = some '#')
    (hrest : rest.head? ≠ some '#') :
    accessColumnNames fs (mkIsoState δ p)
      = .ok (⟨p, some ["Age".toList, "M_ini".toList, "logL".toList, "logT".toList], none⟩,
        ["Age".toList, "M_ini".toList, "logL".toList, "logT".toList]) := by
  have hl := loadColumnNames_header_template pre rest hpre hrest
  simp only [accessColumnNames, mkIsoState, hread, hl]

/-- Witness for claim C2 on a concrete two-comment-line file. -/
theorem claim_C2_column_names_witness :
    accessColumnNames
        ⟨[("output_0.0.dat".toList,
          "# isochrone table\n# Age M_ini logL logT\n1.0 0.8 2.5 3.6\n".toList)]⟩
        (mkIsoState Unit "output_0.0.dat".toList)
      = .ok (⟨"output_0.0.dat".toList,
          some ["Age".toList, "M_ini".toList, "logL".toList, "logT".toList], none⟩,
        ["Age".toList, "M_ini".toList, "logL".toList, "logT".toList]) := by
  refine claim_C2_column_names Unit _ "output_0.0.dat".toList
    ["# isochrone table\n".toList] "1.0 0.8 2.5 3.6\n".toList (by decide) ?_ (by decide)
  intro l hl
  rw [List.mem_singleton] at hl
  subst hl
  exact ⟨"# isochrone table".toList, by decide, by decide, by decide⟩

/-- Claim C3: for every isochrone file that contains no commented line
before its first data line — equivalently, whose first line does not start
with the comment marker, since the read loop stops there — the first
access of the `column_names` property fails (with the exception the spec's
taxonomy calls `HeaderFormatError`; concretely Python raises
`UnboundLocalError` on the unassigned `header` variable). -/
theorem claim_C3_no_header (δ : Type) (fs : CharFS) (p content : List Char)
    (hread : fsRead fs p = some content) (hnc : content.head? ≠ some '#') :
    accessColumnNames fs (mkIsoState δ p) = .error .unboundLocalError := by
  have h1 : lastCommentRun (splitLinesKeep content) = none :=
    lastCommentRun_of_head content hnc
  simp [accessColumnNames, mkIsoState, hread, loadColumnNames, h1]

/-- Witness for claim C3 on a concrete headerless file. -/
theorem claim_C3_no_header_witness :
    accessColumnNames ⟨[("iso.dat".toList, "1 2 3\n4 5 6\n".toList)]⟩
        (mkIsoState Unit "iso.dat".toList)
      = .error .unboundLocalError :=
  claim_C3_no_header Unit ⟨[("iso.dat".toList, "1 2 3\n4 5 6\n".toList)]⟩ "iso.dat".toList
    "1 2 3\n4 5 6\n".toList (by decide) (by decide)

/-! ## Cache behaviour of the lazy properties -/

/-- A successful `column_names` access leaves the column-name cache filled
with the returned value. -/
theorem accessColumnNames_ok_cache {δ : Type} {fs : CharFS} {s s' : IsoFileState δ}
    {v : List (List Char)} (h : accessColumnNames fs s = .ok (s', v)) :
    s'.columnNamesCache = some v := by
  cases hc : s.columnNamesCache with
  | some v₀ =>
    simp only [accessColumnNames, hc, Except.ok.injEq, Prod.mk.injEq] at h
    rw [← h.1, hc, h.2]
  | none =>
    cases hr : fsRead fs s.path with
    | none =>
      simp only [accessColumnNames, hc, hr] at h
      exact Except.noConfusion h
    | some content =>
      cases hl : loadColumnNames content with
      | error e =>
        simp only [accessColumnNames, hc, hr, hl] at h
        exact Except.noConfusion h
      | ok v₀ =>
        simp only [accessColumnNames, hc, hr, hl, Except.ok.injEq, Prod.mk.injEq] at h
        rw [← h.1, h.2]

/-- A successful `data` access leaves the data cache filled with the
returned value. -/
theorem accessData_ok_cache {δ : Type}
    {reader : List Char → List (List Char) → Except PyExc δ} {fs : CharFS}
    {s s' : IsoFileState δ} {d : δ} (h : accessData reader fs s = .ok (s', d)) :
    s'.dataCache = some d := by
  cases hc : s.dataCache with
  | some d₀ =>
    simp only [accessData, hc, Except.ok.injEq, Prod.mk.injEq] at h
    rw [← h.1, hc, h.2]
  | none =>
    cases hcn : accessColumnNames fs s with
    | error e =>
      simp only [accessData, hc, hcn] at h
      exact Except.noConfusion h
    | ok pair =>
      cases hr : fsRead fs pair.1.path with
      | none =>
        simp only [accessData, hc, hcn, hr] at h
        exact Except.noConfusion h
      | some content =>
        cases hread : reader content pair.2 with
        | error e =>
          simp only [accessData, hc, hcn, hr, hread] at h
          exact Except.noConfusion h
        | ok d₀ =>
          simp only [accessData, hc, hcn, hr, hread, Except.ok.injEq, Prod.mk.injEq] at h
          rw [← h.1, h.2]

/-- Claim C5: for every IsochroneFile, the column names and the data are
each computed lazily — the caches start out empty at construction — and
at most once: after a first successful access fills a cache, every
subsequent access returns the identical cached value with the object
state unchanged, independently of the file system contents or the parser
at that later moment (so the file is not re-read and the value is never
recomputed or mutated). -/
theorem claim_C5_lazy_caching (δ : Type)
    (reader reader₂ : List Char → List (List Char) → Except PyExc δ) :
    (∀ p : List Char,
      (mkIsoState δ p).columnNamesCache = none ∧ (mkIsoState δ p).dataCache = none)
    ∧ (∀ (fs fs₂ : CharFS) (s s' : IsoFileState δ) (v : List (List Char)),
        accessColumnNames fs s = .ok (s', v) → accessColumnNames fs₂ s' = .ok (s', v))
    ∧ (∀ (fs fs₂ : CharFS) (s s' : IsoFileState δ) (d : δ),
        accessData reader fs s = .ok (s', d) → accessData reader₂ fs₂ s' = .ok (s', d)) := by
  refine ⟨fun p => ⟨rfl, rfl⟩, ?_, ?_⟩
  · intro fs fs₂ s s' v h
    have hc := accessColumnNames_ok_cache h
    unfold accessColumnNames
    rw [hc]
  · intro fs fs₂ s s' d h
    have hc := accessData_ok_cache h
    unfold accessData
    rw [hc]

/-- Witness for claim C5: a second `column_names` access, against an empty
file system, still returns the value cached by the first. -/
theorem claim_C5_lazy_caching_witness :
    accessColumnNames ⟨[]⟩
        (⟨"iso.dat".toList, some ["Age".toList], none⟩ : IsoFileState Unit)
      = .ok (⟨"iso.dat".toList, some ["Age".toList], none⟩, ["Age".toList]) := by
  have h : accessColumnNames ⟨[("iso.dat".toList, "# Age\n1\n".toList)]⟩
      (mkIsoState Unit "iso.dat".toList)
      = .ok (⟨"iso.dat".toList, some ["Age".toList], none⟩, ["Age".toList]) := by decide
  exact (claim_C5_lazy_caching Unit (fun _ _ => .ok ()) (fun _ _ => .ok ())).2.1
    ⟨[("iso.dat".toList, "# Age\n1\n".toList)]⟩ ⟨[]⟩ _ _ _ h

/-- Claim C9: constructing an IsochroneFile from a single path (plus the
isochrone keyword) performs no file I/O — it succeeds for every file
system, including one with no entry at the path, and returns that file
system unchanged — and a missing file surfaces as `FileNotFoundError`
only on the first access of `column_names` or `data`. -/
theorem claim_C9_construction_no_io :
    (∀ (fs : TableFS) (p : List Char) (iso : IsoMeta),
      isochroneFileInit fs (.onePath p) (some iso) = .ok (fs, mkIsoState AstroTable p))
    ∧ (∀ (δ : Type) (fs : CharFS) (p : List Char), fsRead fs p = none →
        accessColumnNames fs (mkIsoState δ p) = .error .fileNotFoundError)
    ∧ (∀ (δ : Type) (reader : List Char → List (List Char) → Except PyExc δ)
        (fs : CharFS) (p : List Char), fsRead fs p = none →
        accessData reader fs (mkIsoState δ p) = .error .fileNotFoundError) := by
  refine ⟨fun fs p iso => rfl, ?_, ?_⟩
  · intro δ fs p h
    simp [accessColumnNames, mkIsoState, h]
  · intro δ reader fs p h
    simp [accessData, accessColumnNames, mkIsoState, h]

/-- Witness for claim C9: construction over an empty file system, and the
missing-file failures on first access. -/
theorem claim_C9_construction_no_io_witness :
    isochroneFileInit ⟨[]⟩ (.onePath "missing.dat".toList) (some ⟨"Age".toList, "M_ini".toList⟩)
      = .ok (⟨[]⟩, mkIsoState AstroTable "missing.dat".toList)
    ∧ accessColumnNames ⟨[]⟩ (mkIsoState Unit "missing.dat".toList)
      = .error .fileNotFoundError := by
  constructor
  · exact claim_C9_construction_no_io.1 ⟨[]⟩ "missing.dat".toList ⟨"Age".toList, "M_ini".toList⟩
  · exact claim_C9_construction_no_io.2.1 Unit ⟨[]⟩ "missing.dat".toList (by decide)

/-- A two-positional-argument construction never raises `TypeError`: the
write step can only raise `ValueError` (bad data type) or `KeyError`
(missing sort column). -/
theorem init_pathAndTable_not_typeError (fs : TableFS) (p : List Char) (d : TableLike)
    (m : IsoMeta) :
    raisesTypeError (isochroneFileInit fs (.pathAndTable p d) (some m)) = false := by
  cases d with
  | other => rfl
  | pandas t =>
    simp only [isochroneFileInit, writeTable, tableSortByKeys]
    cases List.findIdx? (fun n => n == m.ageName) t.colnames <;>
      cases List.findIdx? (fun n => n == m.miniName) t.colnames <;> rfl
  | astro t =>
    simp only [isochroneFileInit, writeTable, tableSortByKeys]
    cases List.findIdx? (fun n => n == m.ageName) t.colnames <;>
      cases List.findIdx? (fun n => n == m.miniName) t.colnames <;> rfl

/-- Claim C10: `IsochroneFile.__init__` raises `TypeError` exactly when
the isochrone keyword is missing, no positional argument is given, or
more than two positional arguments are given; and the keyword check runs
first — with the keyword missing the error is the keyword `TypeError`
whatever the positional arguments are.  (In the `Except` embedding an
error construction returns no object, so no partially constructed object
escapes.) -/
theorem claim_C10_init_type_errors (fs : TableFS) (args : InitArgs) (iso : Option IsoMeta) :
    (raisesTypeError (isochroneFileInit fs args iso) = true
      ↔ iso = none ∨ args = .noArgs ∨ ∃ extra, args = .moreThanTwo extra)
    ∧ (iso = none → isochroneFileInit fs args iso = .error .typeErrorKeywordMissing) := by
  constructor
  · cases iso with
    | none => simp [isochroneFileInit, raisesTypeError]
    | some m =>
      cases args with
      | noArgs => simp [isochroneFileInit, raisesTypeError]
      | onePath p => simp [isochroneFileInit, raisesTypeError]
      | pathAndTable p d => simp [init_pathAndTable_not_typeError fs p d m]
      | moreThanTwo extra => simp [isochroneFileInit, raisesTypeError]
  · intro h
    subst h
    rfl

/-- Witness for claim C10: with the keyword missing, even an
over-long positional list reports the missing keyword first. -/
theorem claim_C10_init_type_errors_witness :
    isochroneFileInit ⟨[]⟩ (.moreThanTwo 2) none = .error .typeErrorKeywordMissing :=
  (claim_C10_init_type_errors ⟨[]⟩ (.moreThanTwo 2) none).2 rfl

/-! ## The sort-and-write construction path -/

/-- The row order used by `Table.sort([Age, M_ini])` is transitive. -/
theorem rowKeyLe_trans (iA iM : ℕ) : ∀ a b c : List ℚ,
    rowKeyLe iA iM a b → rowKeyLe iA iM b c → rowKeyLe iA iM a c := by
  intro a b c h₁ h₂
  simp only [rowKeyLe, Bool.or_eq_true, Bool.and_eq_true, decide_eq_true_eq] at h₁ h₂ ⊢
  rcases h₁ with h₁ | ⟨h₁, h₁'⟩ <;> rcases h₂ with h₂ | ⟨h₂, h₂'⟩
  · exact Or.inl (h₁.trans h₂)
  · exact Or.inl (lt_of_lt_of_eq h₁ h₂)
  · exact Or.inl (lt_of_eq_of_lt h₁ h₂)
  · exact Or.inr ⟨h₁.trans h₂, le_trans h₁' h₂'⟩

/-- The row order used by `Table.sort([Age, M_ini])` is total. -/
theorem rowKeyLe_total (iA iM : ℕ) : ∀ a b : List ℚ,
    rowKeyLe iA iM a b || rowKeyLe iA iM b a := by
  intro a b
  simp only [rowKeyLe, Bool.or_eq_true, Bool.and_eq_true, decide_eq_true_eq]
  rcases lt_trichotomy (a.getD iA 0) (b.getD iA 0) with h | h | h
  · exact Or.inl (Or.inl h)
  · rcases le_total (a.getD iM 0) (b.getD iM 0) with h' | h'
    · exact Or.inl (Or.inr ⟨h, h'⟩)
    · exact Or.inr (Or.inr ⟨h.symm, h'⟩)
  · exact Or.inr (Or.inl h)

/-- The table `_write_table` actually stores: the input rows sorted by
(age, initial mass), under the unchanged column names. -/
def sortedTable (iA iM : ℕ) (t : AstroTable) : AstroTable :=
  ⟨t.colnames, t.rows.mergeSort (rowKeyLe iA iM)⟩

/-- Claim C6: constructing an IsochroneFile from a path together with raw
tabular data first writes the table to that path with the rows sorted by
(age, initial mass) ascending — a permutation of the input rows — and
afterwards the object behaves as a normal on-disk isochrone file: its
`data` property yields back exactly the written (sorted) table.  `iA` and
`iM` are the positions of the age and initial-mass columns. -/
theorem claim_C6_write_then_read (iso : IsoMeta) (fs : TableFS) (p : List Char)
    (t : AstroTable) (iA iM : ℕ)
    (hA : List.findIdx? (fun n => n == iso.ageName) t.colnames = some iA)
    (hM : List.findIdx? (fun n => n == iso.miniName) t.colnames = some iM) :
    isochroneFileInit fs (.pathAndTable p (.astro t)) (some iso)
        = .ok (fsWriteT fs p (sortedTable iA iM t), mkIsoState AstroTable p)
    ∧ (sortedTable iA iM t).rows.Perm t.rows
    ∧ List.Pairwise (fun r₁ r₂ => rowKeyLe iA iM r₁ r₂ = true) (sortedTable iA iM t).rows
    ∧ accessDataT (fsWriteT fs p (sortedTable iA iM t)) (mkIsoState AstroTable p)
        = .ok (⟨p, some t.colnames, some (sortedTable iA iM t)⟩, sortedTable iA iM t) := by
  have hfsr : fsReadT (fsWriteT fs p (sortedTable iA iM t)) p = some (sortedTable iA iM t) := by
    simp [fsReadT, fsWriteT, List.find?]
  refine ⟨?_, ?_, ?_, ?_⟩
  · simp only [isochroneFileInit, writeTable, tableSortByKeys, hA, hM, sortedTable]
  · exact List.mergeSort_perm t.rows (rowKeyLe iA iM)
  · exact List.sorted_mergeSort (rowKeyLe_trans iA iM) (rowKeyLe_total iA iM) t.rows
  · simp only [accessDataT, accessColumnNamesT, loadColumnNamesT, asciiReadT, mkIsoState, hfsr]
    rfl

/-- Witness for claim C6 on a concrete two-row table needing reordering. -/
theorem claim_C6_write_then_read_witness :
    isochroneFileInit ⟨[]⟩
        (.pathAndTable "output_0.0.dat".toList
          (.astro ⟨["Age".toList, "M_ini".toList], [[2, 5], [1, 7]]⟩))
        (some ⟨"Age".toList, "M_ini".toList⟩)
      = .ok (fsWriteT ⟨[]⟩ "output_0.0.dat".toList
          (sortedTable 0 1 ⟨["Age".toList, "M_ini".toList], [[2, 5], [1, 7]]⟩),
        mkIsoState AstroTable "output_0.0.dat".toList) :=
  (claim_C6_write_then_read ⟨"Age".toList, "M_ini".toList⟩ ⟨[]⟩ "output_0.0.dat".toList
    ⟨["Age".toList, "M_ini".toList], [[2, 5], [1, 7]]⟩ 0 1 (by decide) (by decide)).1

/-! ## Input selection in the public entry point -/

/-- Counterexample for claim C7: a call supplying both the pre-built
exchange-file paths and the three positional arrays is not a usage error —
it succeeds, silently selecting the pre-built path and ignoring the
arrays (the `elif` never runs). -/
theorem claim_C7_counterexample :
    makeSurveyFromParticles ([1, 2, 3] : List ℕ) (some "p".toList) (some "k".toList) 1
      = .ok (.prebuilt "p".toList "k".toList) := by
  simp [makeSurveyFromParticles, surveyMakeSurvey]

/-- Claim C7 (amended): the two input paths are not checked for mutual
exclusivity; the pre-built path takes precedence.  A call providing both
`pname` and `kname` uses the pre-built exchange files and ignores the
positional arrays without error, and a call that selects neither path
(`pname` or `kname` missing and positional-argument count ≠ 3) fails —
with the `UnboundLocalError` of the never-assigned `input` variable. -/
theorem claim_C7_amended {α : Type} (args : List α) (p k : List Char) (fsample : ℚ)
    (h0 : 0 ≤ fsample) (h1 : fsample ≤ 1) :
    makeSurveyFromParticles args (some p) (some k) fsample = .ok (.prebuilt p k)
    ∧ ∀ (pn kn : Option (List Char)), (pn = none ∨ kn = none) → args.length ≠ 3 →
        makeSurveyFromParticles args pn kn fsample = .error .unboundLocalError := by
  have hin : ¬(fsample < 0 ∨ 1 < fsample) := by
    push_neg
    exact ⟨h0, h1⟩
  constructor
  · simp [makeSurveyFromParticles, surveyMakeSurvey, hin]
  · intro pn kn hor hlen
    rcases pn with _ | p'
    · rcases kn with _ | k' <;> simp [makeSurveyFromParticles, hlen]
    · rcases kn with _ | k'
      · simp [makeSurveyFromParticles, hlen]
      · rcases hor with h | h <;> cases h

/-- Witness for the amended claim C7: with neither path selected the call
fails with `UnboundLocalError`. -/
theorem claim_C7_amended_witness :
    makeSurveyFromParticles ([1] : List ℕ) none none 1 = .error .unboundLocalError :=
  (claim_C7_amended [1] "p".toList "k".toList 1 (by norm_num) (by norm_num)).2
    none none (Or.inl rfl) (by decide)

/-- Claim C8: a sample fraction outside [0, 1] supplied to the public
entry point is rejected before the survey is generated, whichever input
path the call selects. -/
theorem claim_C8_fsample_range {α : Type} (args : List α) (pn kn : Option (List Char))
    (fsample : ℚ)
    (hsel : (∃ p k, pn = some p ∧ kn = some k) ∨ args.length = 3)
    (hout : fsample < 0 ∨ 1 < fsample) :
    makeSurveyFromParticles args pn kn fsample = .error .valueErrorFsampleRange := by
  rcases pn with _ | p <;> rcases kn with _ | k
  · rcases hsel with ⟨p', k', hp, _⟩ | hlen
    · cases hp
    · simp [makeSurveyFromParticles, hlen, surveyMakeSurvey, hout]
  · rcases hsel with ⟨p', k', hp, _⟩ | hlen
    · cases hp
    · simp [makeSurveyFromParticles, hlen, surveyMakeSurvey, hout]
  · rcases hsel with ⟨p', k', _, hk⟩ | hlen
    · cases hk
    · simp [makeSurveyFromParticles, hlen, surveyMakeSurvey, hout]
  · simp [makeSurveyFromParticles, surveyMakeSurvey, hout]

/-- Witness for claim C8 at the out-of-range sample fraction 2. -/
theorem claim_C8_fsample_range_witness :
    makeSurveyFromParticles ([] : List ℕ) (some "p".toList) (some "k".toList) 2
      = .error .valueErrorFsampleRange :=
  claim_C8_fsample_range [] (some "p".toList) (some "k".toList) 2
    (Or.inl ⟨"p".toList, "k".toList, rfl, rfl⟩) (Or.inr (by norm_num))

/-- Counterexample for claim C4: on the malformed name `table_0.5.dat` the
code raises `IndexError` (from subscripting the empty `re.findall` result),
not a `ValueError`-class error. -/
theorem claim_C4_counterexample :
    metallicity "table_0.5.dat".toList = .error .indexError
    ∧ (metallicity "table_0.5.dat".toList == Except.error PyExc.valueError) = false := by
  exact ⟨by decide, by decide⟩

/-- Claim C4 (amended): for every IsochroneFile whose filename never lets
the `output_` lookbehind succeed (the fixed prefix does not occur, as in
`table_0.5.dat`), accessing the metallicity property fails with an
`IndexError` — not a `ValueError`-class error. -/
theorem claim_C4_amended (f : List Char)
    (h : ∀ i, i ≤ f.length → lookbehindAt f i = false) :
    metallicity f = .error .indexError := by
  have hscan : ∀ fuel i, i + fuel ≤ f.length + 1 → firstFrom f i fuel = none := by
    intro fuel
    induction fuel with
    | zero => intro i _; rfl
    | succ n ih =>
      intro i hle
      rw [firstFrom_step_no f i n (h i (by omega))]
      exact ih (i + 1) (by omega)
  have hnone : firstFrom f 0 (f.length + 1) = none := hscan (f.length + 1) 0 (by omega)
  simp [metallicity, reFirstGroup, hnone]

/-- Witness for the amended claim C4 at the concrete name `table_0.5.dat`. -/
theorem claim_C4_amended_witness :
    metallicity "table_0.5.dat".toList = .error .indexError :=
  claim_C4_amended "table_0.5.dat".toList (by decide)
